import Mathlib

/-!
# GutRest — Timeline Aggregation & Fasting Engine: a shallow embedding

This file embeds the core computation layer of the GutRest meal/fasting
tracker in Lean 4 and proves properties of it:

* `TimeCalculationService` (src/unnamed/part_007): gap calculation, fasting
  window calculation, duration formatting/parsing, current fasting status.
* `constants/MealCategories.ts`: the category enumeration and the
  fast-breaking classification table.
* `services/database.ts` together with `services/dateUtils.ts`: the daily
  aggregator (`getDailySummary`), its own inline gap and fasting-window
  computation, local-date handling, `updateMealEntry`, and the schema
  migration (`runMigrations`).

Modelling conventions, stated once:

* JS `number` values holding millisecond timestamps and durations are
  modelled as `Int` (the app's values are far below 2^53, where JS doubles
  are exact integers).  The one place the source divides
  (`progressPercentage`) is modelled with exact rationals `ℚ`.
* JS `Date.now()` is modelled as an explicit `now : Int` argument.
* A calendar date string `"YYYY-MM-DD"` is modelled by its day index
  (days since 1970-01-01).  The textual rendering performed by
  `getLocalDateString` (local year/month/day, zero padded) is a bijection
  between day indices and such strings, and no claim concerns the text
  itself, so the index stands for the string.  ECMAScript parses a
  date-only string `new Date("YYYY-MM-DD")` as *UTC* midnight, i.e. the
  day index `d` maps to the timestamp `d * DAY_MS`.
* The device timezone is a fixed UTC offset `off` in milliseconds
  (`localTime = utcTime + off`); daylight-saving transitions are out of
  scope of every claim considered.
* The SQLite store behind `expo-sqlite` is modelled by a `Backend` whose
  range query either returns the rows (ascending by timestamp, as the
  `ORDER BY` guarantees) or fails with a message, mirroring `getAllAsync`.
-/

namespace GutRest

/-- One minute in milliseconds. -/
def MINUTE_MS : Int := 60 * 1000

/-- One hour in milliseconds. -/
def HOUR_MS : Int := 60 * 60 * 1000

/-- One day in milliseconds. -/
def DAY_MS : Int := 24 * 60 * 60 * 1000

/-- The fixed meal category enumeration (`types` / `MealCategories.ts`). -/
inductive MealCategory where
  | water
  | fruit
  | light_meal
  | medium_meal
  | heavy_meal
  | fast_food
  | drink
deriving DecidableEq, Repr

/-- `FASTING_BREAKING_CATEGORIES` from `constants/MealCategories.ts`:
every category except plain water breaks a fast. -/
def FASTING_BREAKING_CATEGORIES : List MealCategory :=
  [.fruit, .light_meal, .medium_meal, .heavy_meal, .fast_food, .drink]

/-- `doesCategoryBreakFasting` from `constants/MealCategories.ts`. -/
def doesCategoryBreakFasting (c : MealCategory) : Bool :=
  FASTING_BREAKING_CATEGORIES.contains c

/-- `MealEvent` / `MealEntry` record (the `types` module): id, category,
epoch-millisecond timestamp, optional notes, bookkeeping timestamps. -/
structure MealEntry where
  id : String
  category : MealCategory
  timestamp : Int
  notes : Option String := none
  createdAt : Int := 0
  updatedAt : Int := 0
deriving DecidableEq, Repr

/-- Derived `TimeGap` record. -/
structure TimeGap where
  startTime : Int
  endTime : Int
  durationMs : Int
  durationFormatted : String
deriving DecidableEq, Repr

/-- Derived `FastingWindow` record. -/
structure FastingWindow where
  startTime : Int
  endTime : Int
  durationMs : Int
  durationFormatted : String
  isIntermittentFasting : Bool
deriving DecidableEq, Repr

/-! ## Decimal rendering and the duration parser

`formatDuration` renders numbers with JS template interpolation
(`` `${minutes}m` ``); `parseDuration` extracts them back with the regexes
`(\d+)h` and `(\d+)m`.  We model number rendering by an explicit decimal
printer and the regex search by a left-to-right scan that captures the
first maximal digit run immediately followed by the unit character, which
is exactly the first match of `(\d+)u` when `u` is not a digit. -/

/-- The character of a decimal digit `d < 10`. -/
def digitChar (d : Nat) : Char := Char.ofNat (48 + d)

/-- Decimal digits accumulator, structurally recursive on a fuel bound so
that it evaluates inside the kernel; `fuel ≥ n` always suffices because
`n / 10 < n` for `n > 0`. -/
def natDigitsRevAux : Nat → Nat → List Char
  | _, 0 => []
  | 0, _ + 1 => []
  | fuel + 1, n + 1 => digitChar ((n + 1) % 10) :: natDigitsRevAux fuel ((n + 1) / 10)

/-- Decimal digits of `n`, least significant first (`[]` for `0`). -/
def natDigitsRev (n : Nat) : List Char := natDigitsRevAux n n

/-- Decimal digit characters of `n`, most significant first. -/
def natStrChars (n : Nat) : List Char :=
  if n = 0 then ['0'] else (natDigitsRev n).reverse

/-- Decimal rendering of a natural number, as JS renders a nonnegative
integral `number`. -/
def natStr (n : Nat) : String := String.mk (natStrChars n)

/-- JS rendering of an integral `number` (sign then digits). -/
def intStr (i : Int) : String :=
  if i < 0 then "-" ++ natStr (-i).toNat else natStr i.toNat

/-- One step of the digit-run scanner: `cur` is the value of the digit run
currently being read (`none` when not inside a run).  A run matches when it
is immediately followed by the unit character `u`; the first such run is
captured, exactly as the first match of the regex `(\d+)u` for a non-digit
`u`. -/
def scanAux (u : Char) : Option Nat → List Char → Option Nat
  | _, [] => none
  | cur, c :: cs =>
    if c.isDigit then
      scanAux u (some (10 * cur.getD 0 + (c.toNat - 48))) cs
    else
      match cur with
      | some n => if c == u then some n else scanAux u none cs
      | none => scanAux u none cs

namespace TimeCalculationService

/-- `TimeCalculationService.formatDuration`: negative clamps to `"0m"`;
otherwise truncate to whole minutes and render `"{m}m"`, `"{h}h"` or
`"{h}h {m}m"`. -/
def formatDuration (milliseconds : Int) : String :=
  if milliseconds < 0 then "0m"
  else
    let totalMinutes := milliseconds.toNat / 60000
    let hours := totalMinutes / 60
    let minutes := totalMinutes % 60
    if hours = 0 then natStr minutes ++ "m"
    else if minutes = 0 then natStr hours ++ "h"
    else natStr hours ++ "h " ++ natStr minutes ++ "m"

/-- `TimeCalculationService.parseDuration`: extract the optional `(\d+)h`
and `(\d+)m` tokens and return total milliseconds. -/
def parseDuration (durationString : String) : Int :=
  let hours := (scanAux 'h' none durationString.data).getD 0
  let minutes := (scanAux 'm' none durationString.data).getD 0
  ((hours * 60 + minutes : Nat) : Int) * 60000

end TimeCalculationService

/-- The timestamp-ascending comparison used by both sort sites
(`(a, b) => a.timestamp - b.timestamp`). -/
def tsLE (a b : MealEntry) : Prop := a.timestamp ≤ b.timestamp

instance : DecidableRel tsLE := fun a b => inferInstanceAs (Decidable (a.timestamp ≤ b.timestamp))

instance : IsTotal MealEntry tsLE := ⟨fun a b => Int.le_total a.timestamp b.timestamp⟩

instance : IsTrans MealEntry tsLE := ⟨fun _ _ _ h h' => le_trans h h'⟩

/-- A stable sort ascending by timestamp, modelling
`[...entries].sort((a, b) => a.timestamp - b.timestamp)` (ECMAScript sort
is stable). -/
def sortByTimestamp (entries : List MealEntry) : List MealEntry :=
  entries.insertionSort tsLE

/-- The gap-construction loop shared (textually duplicated) by
`TimeCalculationService.calculateGaps` and the database service's
`calculateTimeGaps`: one `TimeGap` per adjacent pair, formatted by `fmt`. -/
def gapsWith (fmt : Int → String) : List MealEntry → List TimeGap
  | a :: b :: rest =>
    { startTime := a.timestamp
      endTime := b.timestamp
      durationMs := b.timestamp - a.timestamp
      durationFormatted := fmt (b.timestamp - a.timestamp) } :: gapsWith fmt (b :: rest)
  | _ => []

namespace TimeCalculationService

/-- `TimeCalculationService.calculateGaps`: fewer than two entries gives
`[]`; otherwise sort a copy ascending by timestamp and emit the `n - 1`
adjacent gaps. -/
def calculateGaps (entries : List MealEntry) : List TimeGap :=
  if entries.length < 2 then []
  else gapsWith formatDuration (sortByTimestamp entries)

/-- `TimeCalculationService.calculateFastingWindow`: `none` when either
entry is missing; `durationMs = first - last`; `none` when
`durationMs ≤ 0` or `durationMs > 48h`; otherwise a window flagged
intermittent at the fixed 16h threshold. -/
def calculateFastingWindow (lastEntryYesterday firstEntryToday : Option MealEntry) :
    Option FastingWindow :=
  match lastEntryYesterday, firstEntryToday with
  | some le, some fe =>
    let durationMs := fe.timestamp - le.timestamp
    if durationMs ≤ 0 ∨ 48 * HOUR_MS < durationMs then none
    else
      some { startTime := le.timestamp
             endTime := fe.timestamp
             durationMs := durationMs
             durationFormatted := formatDuration durationMs
             isIntermittentFasting := decide (16 * HOUR_MS ≤ durationMs) }
  | _, _ => none

/-- The record returned by `getCurrentFastingStatus`. -/
structure CurrentFastingStatus where
  isCurrentlyFasting : Bool
  currentFastDuration : Int
  currentFastFormatted : String
  timeToGoal : Int
  timeToGoalFormatted : String
  goalReached : Bool
  progressPercentage : Int
deriving DecidableEq, Repr

/-- `TimeCalculationService.getCurrentFastingStatus`.  `Date.now()` is the
explicit argument `now`; the goal hours are integral (the settings store
only supplies integers).  `progressPercentage` divides in ℚ, modelling the
exact value of the JS float expression `Math.round(Math.min(100, dur /
goalMs * 100))`. -/
def getCurrentFastingStatus (lastEntry : Option MealEntry)
    (fastingGoalHours : Int) (now : Int) : CurrentFastingStatus :=
  match lastEntry with
  | none =>
    { isCurrentlyFasting := false
      currentFastDuration := 0
      currentFastFormatted := "0m"
      timeToGoal := 0
      timeToGoalFormatted := "0m"
      goalReached := false
      progressPercentage := 0 }
  | some le =>
    let currentFastDuration := now - le.timestamp
    let goalMs := fastingGoalHours * HOUR_MS
    let timeToGoal := max 0 (goalMs - currentFastDuration)
    let progressPercentage : ℚ :=
      min 100 ((currentFastDuration : ℚ) / (goalMs : ℚ) * 100)
    { isCurrentlyFasting := decide (0 < currentFastDuration)
      currentFastDuration := currentFastDuration
      currentFastFormatted := formatDuration currentFastDuration
      timeToGoal := timeToGoal
      timeToGoalFormatted := formatDuration timeToGoal
      goalReached := decide (goalMs ≤ currentFastDuration)
      progressPercentage := round progressPercentage }

/-- `TimeCalculationService.calculateEatingWindow`: span between the first
and last entry of the sorted list, `0` for fewer than two entries. -/
def calculateEatingWindow (entries : List MealEntry) : Int :=
  if entries.length < 2 then 0
  else
    let sorted := sortByTimestamp entries
    ((sorted.getLast?.map MealEntry.timestamp).getD 0) -
      ((sorted.head?.map MealEntry.timestamp).getD 0)

end TimeCalculationService

/-! ## The database service (`services/database.ts` + `services/dateUtils.ts`)

The fixed device UTC offset is a parameter `off` (milliseconds,
`localTime = utcTime + off`).  A date id is the day index of the
`"YYYY-MM-DD"` string (see the header).  `Int.ediv` is floor division,
matching JS `Math.floor` on exact values and the local-day computation of
`Date`'s calendar getters. -/

instance {ε α : Type _} [DecidableEq ε] [DecidableEq α] : DecidableEq (Except ε α) := fun x y =>
  match x, y with
  | .ok a, .ok b =>
    if h : a = b then isTrue (by rw [h]) else isFalse (by intro he; cases he; exact h rfl)
  | .error a, .error b =>
    if h : a = b then isTrue (by rw [h]) else isFalse (by intro he; cases he; exact h rfl)
  | .ok _, .error _ => isFalse (by intro he; cases he)
  | .error _, .ok _ => isFalse (by intro he; cases he)

/-- `AppError` from `types` (a plain object, *not* an `Error` instance).
`detailCode` records the `code` of a wrapped inner `AppError`, standing
for the `details` field. -/
structure AppError where
  code : String
  message : String
  detailCode : Option String := none
deriving DecidableEq, Repr

/-- A value thrown inside the service's `try` blocks: either a JS `Error`
(summarised by its message) or a plain `AppError` object. -/
inductive Thrown where
  | jsError (message : String)
  | appError (e : AppError)
deriving DecidableEq, Repr

/-- The catch-clause test `error instanceof Error &&
error.message.includes("ENTRY_NOT_FOUND")`: a plain `AppError` object is
never an `Error` instance, so only a JS error whose message contains the
text can pass. -/
def thrownIsEntryNotFoundError : Thrown → Bool
  | .jsError m => (m.splitOn "ENTRY_NOT_FOUND").length != 1
  | .appError _ => false

namespace Database

/-- The local calendar-day index of a UTC timestamp under offset `off`,
as computed by `Date`'s local getters. -/
def localDayOf (off t : Int) : Int := (t + off).ediv DAY_MS

/-- `getLocalDateString` of `dateUtils.ts` applied to a `Date` holding UTC
time `t`: the local year/month/day rendering, i.e. the local day index. -/
def getLocalDateString (off t : Int) : Int := localDayOf off t

/-- `getDateStringWithOffset` of `dateUtils.ts`: parse the date id as UTC
midnight (`new Date(baseDate)`), shift the local calendar by `offsetDays`
(`setDate(getDate() + offsetDays)`, which under a fixed offset adds
`offsetDays` days of milliseconds), and re-render the local date. -/
def getDateStringWithOffset (off baseDate offsetDays : Int) : Int :=
  getLocalDateString off (baseDate * DAY_MS + offsetDays * DAY_MS)

/-- Start bound used by `getMealEntriesByDate`: `new Date(date)` (UTC
midnight of the id) followed by `setHours(0, 0, 0, 0)` (local midnight of
whatever local day that UTC instant falls in). -/
def dayQueryStart (off date : Int) : Int :=
  localDayOf off (date * DAY_MS) * DAY_MS - off

/-- End bound used by `getMealEntriesByDate`:
`setHours(23, 59, 59, 999)` on the same `Date`. -/
def dayQueryEnd (off date : Int) : Int :=
  localDayOf off (date * DAY_MS) * DAY_MS + DAY_MS - 1 - off

/-- The SQLite store behind `expo-sqlite`, reduced to the one query shape
the aggregator issues: `SELECT * ... WHERE timestamp >= ? AND timestamp
<= ? ORDER BY timestamp ASC`, which either yields rows or throws. -/
structure Backend where
  runQuery : Int → Int → Except String (List MealEntry)

/-- The error `createError("QUERY_FAILED", "Failed to retrieve meal
entries", error)` thrown by `getMealEntriesByDate` on a store failure. -/
def queryFailedError : AppError :=
  { code := "QUERY_FAILED", message := "Failed to retrieve meal entries" }

/-- `getMealEntriesByDate`: convert the date id to the timestamp range of
*one* setHours-derived day and query the store, wrapping any failure as a
`QUERY_FAILED` `AppError`. -/
def getMealEntriesByDate (off : Int) (b : Backend) (date : Int) :
    Except AppError (List MealEntry) :=
  match b.runQuery (dayQueryStart off date) (dayQueryEnd off date) with
  | .ok rows => .ok rows
  | .error _ => .error queryFailedError

/-- The database service's own `formatDuration` (no negative clamp):
`hours = Math.floor(ms / 3600000)`,
`minutes = Math.floor((ms % 3600000) / 60000)` with JS truncating `%`. -/
def formatDuration (milliseconds : Int) : String :=
  let hours := milliseconds.ediv HOUR_MS
  let minutes := (milliseconds.tmod HOUR_MS).ediv MINUTE_MS
  if hours = 0 then intStr minutes ++ "m"
  else if minutes = 0 then intStr hours ++ "h"
  else intStr hours ++ "h " ++ intStr minutes ++ "m"

/-- The database service's `calculateTimeGaps`: identical loop to the
calculator's, but over the rows as queried (already ascending) and with
its own formatter. -/
def calculateTimeGaps (entries : List MealEntry) : List TimeGap :=
  if entries.length < 2 then [] else gapsWith formatDuration entries

/-- The database service's private `calculateFastingWindow`: query
yesterday's id; a query failure is *caught* (`console.warn`) and yields
`none`; otherwise pair the last row of yesterday with the first row of
today — no category filter and no duration guard — and flag intermittent
fasting at 16h. -/
def calculateFastingWindow (off : Int) (b : Backend) (date : Int)
    (todayEntries : List MealEntry) : Option FastingWindow :=
  let yesterdayStr := getDateStringWithOffset off date (-1)
  match getMealEntriesByDate off b yesterdayStr with
  | .error _ => none
  | .ok yesterdayEntries =>
    match yesterdayEntries.getLast?, todayEntries.head? with
    | some lastYesterday, some firstToday =>
      let durationMs := firstToday.timestamp - lastYesterday.timestamp
      some { startTime := lastYesterday.timestamp
             endTime := firstToday.timestamp
             durationMs := durationMs
             durationFormatted := formatDuration durationMs
             isIntermittentFasting := decide (16 * HOUR_MS ≤ durationMs) }
    | _, _ => none

/-- `DailySummary` as assembled by `getDailySummary`. -/
structure DailySummary where
  date : Int
  entries : List MealEntry
  totalEntries : Nat
  firstIntake : Option Int := none
  lastIntake : Option Int := none
  gaps : List TimeGap := []
  fastingWindow : Option FastingWindow := none
deriving DecidableEq, Repr

/-- `getDailySummary`: query the day's entries (propagating the wrapped
store error), then fill the optional fields when the day is nonempty.  The
fasting-window step cannot raise (its errors are swallowed). -/
def getDailySummary (off : Int) (b : Backend) (date : Int) :
    Except AppError DailySummary :=
  match getMealEntriesByDate off b date with
  | .error e => .error e
  | .ok entries =>
    if entries.isEmpty then
      .ok { date := date, entries := entries, totalEntries := entries.length }
    else
      .ok { date := date
            entries := entries
            totalEntries := entries.length
            firstIntake := entries.head?.map MealEntry.timestamp
            lastIntake := entries.getLast?.map MealEntry.timestamp
            gaps := calculateTimeGaps entries
            fastingWindow := calculateFastingWindow off b date entries }

/-- An honest in-memory store: the range query filters the rows and
returns them ascending by timestamp, never failing. -/
def honestBackend (rows : List MealEntry) : Backend :=
  ⟨fun s e => .ok (sortByTimestamp (rows.filter
      (fun r => decide (s ≤ r.timestamp) && decide (r.timestamp ≤ e))))⟩

/-! ### `updateMealEntry` -/

/-- A partial-update patch (`Partial<MealEntry>` restricted to the three
mutable fields the method inspects). -/
structure MealPatch where
  category : Option MealCategory := none
  timestamp : Option Int := none
  notes : Option String := none
deriving DecidableEq, Repr

/-- Apply a patch to an entry, touching `updatedAt` (the `SET` clause). -/
def applyPatch (p : MealPatch) (now : Int) (e : MealEntry) : MealEntry :=
  { e with
    category := p.category.getD e.category
    timestamp := p.timestamp.getD e.timestamp
    notes := match p.notes with | some n => some n | none => e.notes
    updatedAt := now }

/-- The `try` block of `updateMealEntry`: build the dynamic `SET` clause;
with no real field present only `updated_at` remains and the method
returns early; otherwise run the `UPDATE` and throw the plain
`ENTRY_NOT_FOUND` `AppError` object when `changes === 0`. -/
def updateMealEntryBody (store : List MealEntry) (id : String)
    (updates : MealPatch) (now : Int) : Except Thrown (List MealEntry) :=
  let hasFields :=
    updates.category.isSome || updates.timestamp.isSome || updates.notes.isSome
  if !hasFields then .ok store
  else if store.any (fun e => e.id == id) then
    .ok (store.map (fun e => if e.id == id then applyPatch updates now e else e))
  else
    .error (.appError
      { code := "ENTRY_NOT_FOUND"
        message := "Meal entry with id " ++ id ++ " not found" })

/-- `updateMealEntry`: the body above inside the catch clause, which
re-throws only values passing `thrownIsEntryNotFoundError` and wraps
everything else as `UPDATE_FAILED` (recording the inner code). -/
def updateMealEntry (store : List MealEntry) (id : String)
    (updates : MealPatch) (now : Int) : Except AppError (List MealEntry) :=
  match updateMealEntryBody store id updates now with
  | .ok s => .ok s
  | .error t =>
    if thrownIsEntryNotFoundError t then
      .error (match t with
        | .appError e => e
        | .jsError m => { code := "JS_ERROR", message := m })
    else
      .error { code := "UPDATE_FAILED"
               message := "Failed to update meal entry"
               detailCode := some (match t with
                 | .appError e => e.code
                 | .jsError _ => "Error") }

/-! ### `runMigrations` -/

/-- A stored row of `meal_entries`; `date` holds the value of the legacy
`date` column when that column exists. -/
structure DbRow where
  id : String
  category : String
  timestamp : Int
  notes : Option String
  created_at : Int
  updated_at : Int
  date : Option String := none
deriving DecidableEq, Repr

/-- The store schema as far as the migration inspects it: the
`meal_entries` table (column names and rows), or no table yet. -/
structure MigDb where
  mealEntries : Option (List String × List DbRow)
deriving DecidableEq, Repr

/-- The column set of the current `MealEntry` shape. -/
def baseColumns : List String :=
  ["id", "category", "timestamp", "notes", "created_at", "updated_at"]

/-- `runMigrations`: if `meal_entries` exists and `PRAGMA table_info`
shows a `date` column, rebuild the table with the base columns, copying
the six base columns of every row; otherwise do nothing.  The
drop/copy/rename sequence is modelled as one atomic rebuild. -/
def runMigrations (db : MigDb) : MigDb :=
  match db.mealEntries with
  | none => db
  | some (cols, rows) =>
    if cols.contains "date" then
      { mealEntries := some (baseColumns, rows.map (fun r => { r with date := none })) }
    else db

/-- The migration-relevant data content: every row's six base columns. -/
def coreRows (db : MigDb) : Option (List (String × String × Int × Option String × Int × Int)) :=
  (db.mealEntries).map (fun t => t.2.map
    (fun r => (r.id, r.category, r.timestamp, r.notes, r.created_at, r.updated_at)))

/-- Whether introspection (`PRAGMA table_info`) reports a `date` column. -/
def hasDateColumn (db : MigDb) : Bool :=
  match db.mealEntries with
  | none => false
  | some (cols, _) => cols.contains "date"

end Database

/-! ## Helper lemmas about the gap loop -/

theorem gapsWith_length (fmt : Int → String) :
    (l : List MealEntry) → (gapsWith fmt l).length = l.length - 1
  | [] => rfl
  | [_] => rfl
  | a :: b :: r => by
    have ih := gapsWith_length fmt (b :: r)
    simp only [gapsWith, List.length_cons] at ih ⊢
    omega

theorem gapsWith_getElem? (fmt : Int → String) :
    (l : List MealEntry) → (i : Nat) → (x y : MealEntry) →
    l[i]? = some x → l[i + 1]? = some y →
    (gapsWith fmt l)[i]? = some
      { startTime := x.timestamp, endTime := y.timestamp,
        durationMs := y.timestamp - x.timestamp,
        durationFormatted := fmt (y.timestamp - x.timestamp) }
  | [], _, _, _, hx, _ => by simp at hx
  | [_], i, _, _, _, hy => by
    rw [List.getElem?_eq_none (by simp)] at hy
    exact absurd hy (by simp)
  | a :: b :: r, 0, x, y, hx, hy => by
    simp only [List.getElem?_cons_zero, Option.some.injEq] at hx
    simp only [List.getElem?_cons_succ, List.getElem?_cons_zero, Option.some.injEq] at hy
    subst hx; subst hy
    simp [gapsWith]
  | a :: b :: r, i + 1, x, y, hx, hy => by
    rw [List.getElem?_cons_succ] at hx
    rw [List.getElem?_cons_succ] at hy
    simpa only [gapsWith, List.getElem?_cons_succ] using
      gapsWith_getElem? fmt (b :: r) i x y hx hy

theorem gapsWith_sum (fmt : Int → String) :
    (a : MealEntry) → (l : List MealEntry) → (b : MealEntry) →
    (a :: l).getLast? = some b →
    ((gapsWith fmt (a :: l)).map TimeGap.durationMs).sum = b.timestamp - a.timestamp
  | a, [], b, h => by
    simp only [List.getLast?_singleton, Option.some.injEq] at h
    subst h
    simp [gapsWith]
  | a, c :: r, b, h => by
    rw [List.getLast?_cons_cons] at h
    have ih := gapsWith_sum fmt c r b h
    simp only [gapsWith, List.map_cons, List.sum_cons] at ih ⊢
    omega

/-! ## Helper lemmas for decimal rendering and the duration scanner -/

theorem digitChar_isDigit (d : Nat) (hd : d < 10) : (digitChar d).isDigit = true := by
  interval_cases d <;> decide

theorem digitChar_toNat (d : Nat) (hd : d < 10) : (digitChar d).toNat = 48 + d := by
  interval_cases d <;> decide

theorem natDigitsRevAux_spec :
    (fuel : Nat) → (n : Nat) → n ≤ fuel →
    ((natDigitsRevAux fuel n).foldr (fun c a => (c.toNat - 48) + 10 * a) 0 = n ∧
      ∀ c ∈ natDigitsRevAux fuel n, c.isDigit = true)
  | _, 0, _ => by simp [natDigitsRevAux]
  | 0, _ + 1, h => by omega
  | fuel + 1, m + 1, h => by
    have hdiv : (m + 1) / 10 ≤ fuel := by
      have hlt : (m + 1) / 10 < m + 1 := Nat.div_lt_self (Nat.succ_pos m) (by omega)
      omega
    have ih := natDigitsRevAux_spec fuel ((m + 1) / 10) hdiv
    have hmod : (m + 1) % 10 < 10 := Nat.mod_lt _ (by omega)
    constructor
    · simp only [natDigitsRevAux, List.foldr_cons, ih.1, digitChar_toNat _ hmod]
      have := Nat.div_add_mod (m + 1) 10
      omega
    · intro c hc
      simp only [natDigitsRevAux, List.mem_cons] at hc
      rcases hc with hc | hc
      · subst hc; exact digitChar_isDigit _ hmod
      · exact ih.2 c hc

theorem natStrChars_ne_nil (n : Nat) : natStrChars n ≠ [] := by
  unfold natStrChars
  split
  · simp
  · next hn =>
    intro h
    rw [List.reverse_eq_nil_iff] at h
    have := (natDigitsRevAux_spec n n le_rfl).1
    rw [natDigitsRev] at h
    rw [h] at this
    simp at this
    omega

theorem natStrChars_digits (n : Nat) : ∀ c ∈ natStrChars n, c.isDigit = true := by
  unfold natStrChars
  split
  · intro c hc; simp at hc; subst hc; decide
  · intro c hc
    rw [natDigitsRev, List.mem_reverse] at hc
    exact (natDigitsRevAux_spec n n le_rfl).2 c hc

theorem natStrChars_val (n : Nat) :
    (natStrChars n).foldl (fun a c => 10 * a + (c.toNat - 48)) 0 = n := by
  unfold natStrChars
  split
  · next hn => subst hn; decide
  · rw [natDigitsRev, List.foldl_reverse]
    have hf : (fun (x : Char) (y : Nat) => 10 * y + (x.toNat - 48)) =
        (fun (c : Char) (a : Nat) => (c.toNat - 48) + 10 * a) := by
      funext c a
      omega
    rw [hf]
    exact (natDigitsRevAux_spec n n le_rfl).1

theorem scanAux_skip (u c : Char) (hc : c.isDigit = false) (cs : List Char) :
    scanAux u none (c :: cs) = scanAux u none cs := by
  simp [scanAux, hc]

theorem scanAux_cons_digit (u c : Char) (hc : c.isDigit = true) (cur : Option Nat)
    (cs : List Char) :
    scanAux u cur (c :: cs) = scanAux u (some (10 * cur.getD 0 + (c.toNat - 48))) cs := by
  simp [scanAux, hc]

theorem scanAux_run_unit (u : Char) (hu : u.isDigit = false) :
    (ds : List Char) → ds ≠ [] → (∀ c ∈ ds, c.isDigit = true) →
    (rs : List Char) → (cur : Option Nat) →
    scanAux u cur (ds ++ u :: rs) =
      some (ds.foldl (fun a c => 10 * a + (c.toNat - 48)) (cur.getD 0))
  | [], h, _, _, _ => absurd rfl h
  | [d], _, hdig, rs, cur => by
    have hd : d.isDigit = true := hdig d (by simp)
    simp [scanAux, hd, hu]
  | d :: d' :: ds, _, hdig, rs, cur => by
    have hd : d.isDigit = true := hdig d (List.mem_cons_self _ _)
    have ih := scanAux_run_unit u hu (d' :: ds) (by simp)
      (fun c hc => hdig c (List.mem_cons_of_mem d hc)) rs
      (some (10 * cur.getD 0 + (d.toNat - 48)))
    rw [List.cons_append, scanAux_cons_digit u d hd cur, ih]
    simp [List.foldl_cons]

theorem scanAux_run_other (u c : Char) (hc : c.isDigit = false) (hne : (c == u) = false) :
    (ds : List Char) → ds ≠ [] → (∀ x ∈ ds, x.isDigit = true) →
    (rs : List Char) → (cur : Option Nat) →
    scanAux u cur (ds ++ c :: rs) = scanAux u none rs
  | [], h, _, _, _ => absurd rfl h
  | [d], _, hdig, rs, cur => by
    have hd : d.isDigit = true := hdig d (by simp)
    simp [scanAux, hd, hc, hne]
  | d :: d' :: ds, _, hdig, rs, cur => by
    have hd : d.isDigit = true := hdig d (List.mem_cons_self _ _)
    have ih := scanAux_run_other u c hc hne (d' :: ds) (by simp)
      (fun x hx => hdig x (List.mem_cons_of_mem d hx)) rs
      (some (10 * cur.getD 0 + (d.toNat - 48)))
    rw [List.cons_append, scanAux_cons_digit u d hd cur]
    exact ih

theorem scanAux_run_end (u : Char) :
    (ds : List Char) → (∀ x ∈ ds, x.isDigit = true) → (cur : Option Nat) →
    scanAux u cur ds = none
  | [], _, _ => rfl
  | d :: ds, hdig, cur => by
    have hd : d.isDigit = true := hdig d (List.mem_cons_self _ _)
    rw [scanAux_cons_digit u d hd cur]
    exact scanAux_run_end u ds (fun x hx => hdig x (List.mem_cons_of_mem d hx)) _

/-- Scanning for the unit that terminates a rendered number finds the
number. -/
theorem scanAux_natStr_hit (u : Char) (hu : u.isDigit = false) (n : Nat) (rs : List Char) :
    scanAux u none (natStrChars n ++ u :: rs) = some n := by
  rw [scanAux_run_unit u hu (natStrChars n) (natStrChars_ne_nil n) (natStrChars_digits n) rs none]
  simp [natStrChars_val n]

/-- Scanning for a different unit skips the rendered number and its
terminator. -/
theorem scanAux_natStr_miss (u c : Char) (hc : c.isDigit = false) (hne : (c == u) = false)
    (n : Nat) (rs : List Char) :
    scanAux u none (natStrChars n ++ c :: rs) = scanAux u none rs :=
  scanAux_run_other u c hc hne (natStrChars n) (natStrChars_ne_nil n) (natStrChars_digits n) rs none

theorem string_data_append (a b : String) : (a ++ b).data = a.data ++ b.data := rfl

theorem formatDuration_nonneg_eq (x : Int) (hx : 0 ≤ x) :
    TimeCalculationService.formatDuration x =
      if x.toNat / 60000 / 60 = 0 then natStr (x.toNat / 60000 % 60) ++ "m"
      else if x.toNat / 60000 % 60 = 0 then natStr (x.toNat / 60000 / 60) ++ "h"
      else natStr (x.toNat / 60000 / 60) ++ "h " ++ natStr (x.toNat / 60000 % 60) ++ "m" := by
  simp only [TimeCalculationService.formatDuration]
  rw [if_neg (not_lt.mpr hx)]

/-- The composition at the heart of the §4.1 inverse property: parsing a
formatted nonnegative duration recovers it truncated to whole minutes. -/
theorem parse_format (x : Int) (hx : 0 ≤ x) :
    TimeCalculationService.parseDuration (TimeCalculationService.formatDuration x) =
      ((x.toNat / 60000 : Nat) : Int) * 60000 := by
  rw [formatDuration_nonneg_eq x hx]
  set tm := x.toNat / 60000 with htm
  have hdm : 60 * (tm / 60) + tm % 60 = tm := Nat.div_add_mod tm 60
  by_cases hh : tm / 60 = 0
  · rw [if_pos hh]
    have hm : tm % 60 = tm := by omega
    simp only [TimeCalculationService.parseDuration, string_data_append]
    have hdata : (natStr (tm % 60)).data ++ ("m").data = natStrChars (tm % 60) ++ 'm' :: [] := rfl
    rw [hdata, scanAux_natStr_miss 'h' 'm' (by decide) (by decide),
      scanAux_natStr_hit 'm' (by decide)]
    simp only [scanAux, Option.getD_none, Option.getD_some]
    omega
  · rw [if_neg hh]
    by_cases hm : tm % 60 = 0
    · rw [if_pos hm]
      simp only [TimeCalculationService.parseDuration, string_data_append]
      have hdata : (natStr (tm / 60)).data ++ ("h").data = natStrChars (tm / 60) ++ 'h' :: [] := rfl
      rw [hdata, scanAux_natStr_hit 'h' (by decide),
        scanAux_natStr_miss 'm' 'h' (by decide) (by decide)]
      simp only [scanAux, Option.getD_none, Option.getD_some]
      omega
    · rw [if_neg hm]
      simp only [TimeCalculationService.parseDuration, string_data_append]
      have hdata : ((natStr (tm / 60)).data ++ ("h ").data ++ (natStr (tm % 60)).data) ++ ("m").data =
          natStrChars (tm / 60) ++ 'h' :: ' ' :: (natStrChars (tm % 60) ++ 'm' :: []) := by
        show (natStrChars (tm / 60) ++ ['h', ' '] ++ natStrChars (tm % 60)) ++ ['m'] = _
        simp
      rw [hdata, scanAux_natStr_hit 'h' (by decide),
        scanAux_natStr_miss 'm' 'h' (by decide) (by decide),
        scanAux_skip 'm' ' ' (by decide), scanAux_natStr_hit 'm' (by decide)]
      simp only [Option.getD_some]
      omega

theorem MINUTE_MS_eq : MINUTE_MS = 60000 := by norm_num [MINUTE_MS]

theorem HOUR_MS_eq : HOUR_MS = 3600000 := by norm_num [HOUR_MS]

theorem DAY_MS_eq : DAY_MS = 86400000 := by norm_num [DAY_MS]

/-! ## The claims -/

/-- **C3.** For every event list (possibly unsorted) of length `n`,
`calculateGaps` returns the empty list when `n < 2`, and otherwise exactly
`n - 1` gaps taken over the timestamp-ascending sorted order, gap `i`
spanning sorted event `i` to sorted event `i + 1`, with the sum of all gap
`durationMs` equal to `last.timestamp - first.timestamp` of the sorted
list. -/
theorem claim3_gap_calculator (es : List MealEntry) :
    (es.length < 2 → TimeCalculationService.calculateGaps es = []) ∧
    (2 ≤ es.length →
      List.Sorted tsLE (sortByTimestamp es) ∧
      (sortByTimestamp es).Perm es ∧
      (TimeCalculationService.calculateGaps es).length = es.length - 1 ∧
      (∀ (i : Nat) (x y : MealEntry),
        (sortByTimestamp es)[i]? = some x → (sortByTimestamp es)[i + 1]? = some y →
        (TimeCalculationService.calculateGaps es)[i]? = some
          { startTime := x.timestamp, endTime := y.timestamp,
            durationMs := y.timestamp - x.timestamp,
            durationFormatted := TimeCalculationService.formatDuration
              (y.timestamp - x.timestamp) }) ∧
      (∀ a b : MealEntry,
        (sortByTimestamp es).head? = some a → (sortByTimestamp es).getLast? = some b →
        ((TimeCalculationService.calculateGaps es).map TimeGap.durationMs).sum =
          b.timestamp - a.timestamp)) := by
  constructor
  · intro h
    simp [TimeCalculationService.calculateGaps, h]
  · intro h
    have hnl : ¬ es.length < 2 := by omega
    have hcg : TimeCalculationService.calculateGaps es =
        gapsWith TimeCalculationService.formatDuration (sortByTimestamp es) := by
      simp [TimeCalculationService.calculateGaps, hnl]
    have hlen : (sortByTimestamp es).length = es.length :=
      (List.perm_insertionSort tsLE es).length_eq
    refine ⟨List.sorted_insertionSort tsLE es, List.perm_insertionSort tsLE es, ?_, ?_, ?_⟩
    · rw [hcg, gapsWith_length, hlen]
    · intro i x y hx hy
      rw [hcg]
      exact gapsWith_getElem? _ _ i x y hx hy
    · intro a b ha hb
      rw [hcg]
      cases hs : sortByTimestamp es with
      | nil => rw [hs] at ha; cases ha
      | cons a' t =>
        rw [hs] at ha hb
        simp only [List.head?_cons, Option.some.injEq] at ha
        rw [← ha]
        exact gapsWith_sum _ a' t b hb

/-- **C3 witness.** A concrete three-event unsorted list: 2 gaps whose
durations sum to the sorted span. -/
theorem claim3_witness :
    (TimeCalculationService.calculateGaps
      [{ id := "b", category := .fruit, timestamp := 3000 },
       { id := "a", category := .water, timestamp := 1000 },
       { id := "c", category := .drink, timestamp := 6000 }]).length = 3 - 1 ∧
    ((TimeCalculationService.calculateGaps
      [{ id := "b", category := .fruit, timestamp := 3000 },
       { id := "a", category := .water, timestamp := 1000 },
       { id := "c", category := .drink, timestamp := 6000 }]).map TimeGap.durationMs).sum =
      (6000 : Int) - 1000 := by
  have h := (claim3_gap_calculator
    [{ id := "b", category := .fruit, timestamp := 3000 },
     { id := "a", category := .water, timestamp := 1000 },
     { id := "c", category := .drink, timestamp := 6000 }]).2 (by decide)
  exact ⟨h.2.2.1, h.2.2.2.2
    { id := "a", category := .water, timestamp := 1000 }
    { id := "c", category := .drink, timestamp := 6000 } (by decide) (by decide)⟩

/-- **C4.** `calculateFastingWindow` yields `none` when either argument is
absent; with both present and `durationMs = first.timestamp -
last.timestamp`, it yields `none` when `durationMs ≤ 0` or `durationMs >
48h`, and otherwise a window with that `durationMs` whose
`isIntermittentFasting` holds exactly when `durationMs ≥ 16h`. -/
theorem claim4_fasting_window_guards (le fe : MealEntry) :
    TimeCalculationService.calculateFastingWindow none none = none ∧
    TimeCalculationService.calculateFastingWindow (some le) none = none ∧
    TimeCalculationService.calculateFastingWindow none (some fe) = none ∧
    (fe.timestamp - le.timestamp ≤ 0 ∨ 48 * HOUR_MS < fe.timestamp - le.timestamp →
      TimeCalculationService.calculateFastingWindow (some le) (some fe) = none) ∧
    (0 < fe.timestamp - le.timestamp → fe.timestamp - le.timestamp ≤ 48 * HOUR_MS →
      TimeCalculationService.calculateFastingWindow (some le) (some fe) = some
        { startTime := le.timestamp, endTime := fe.timestamp,
          durationMs := fe.timestamp - le.timestamp,
          durationFormatted := TimeCalculationService.formatDuration
            (fe.timestamp - le.timestamp),
          isIntermittentFasting := decide (16 * HOUR_MS ≤ fe.timestamp - le.timestamp) }) := by
  refine ⟨rfl, rfl, rfl, ?_, ?_⟩
  · intro hbad
    simp only [TimeCalculationService.calculateFastingWindow]
    rw [if_pos hbad]
  · intro h1 h2
    simp only [TimeCalculationService.calculateFastingWindow]
    rw [if_neg (by push_neg; omega)]

/-- **C4 witness.** At exactly a 16-hour gap the window exists and is
flagged intermittent fasting. -/
theorem claim4_witness :
    TimeCalculationService.calculateFastingWindow
      (some { id := "y", category := .heavy_meal, timestamp := 0 })
      (some { id := "t", category := .fruit, timestamp := 57600000 }) = some
        { startTime := 0, endTime := 57600000, durationMs := 57600000,
          durationFormatted := TimeCalculationService.formatDuration 57600000,
          isIntermittentFasting := decide (16 * HOUR_MS ≤ (57600000 : Int) - 0) } := by
  have h := (claim4_fasting_window_guards
    { id := "y", category := .heavy_meal, timestamp := 0 }
    { id := "t", category := .fruit, timestamp := 57600000 }).2.2.2.2
    (by norm_num) (by rw [HOUR_MS_eq]; norm_num)
  simpa using h

/-- **C5.** `getCurrentFastingStatus` with no qualifying event returns a
not-fasting status with zero durations and zero progress; with an event
and goal `goalHours` it returns `currentFastDuration = now - timestamp`,
`goalReached` iff the goal is met, `timeToGoal = max(0, goalMs - dur)` and
`progressPercentage = round(min(100, dur / goalMs * 100))`. -/
theorem claim5_current_fasting_status (e : MealEntry) (goalHours now : Int) :
    (TimeCalculationService.getCurrentFastingStatus none goalHours now).isCurrentlyFasting
        = false ∧
    (TimeCalculationService.getCurrentFastingStatus none goalHours now).currentFastDuration
        = 0 ∧
    (TimeCalculationService.getCurrentFastingStatus none goalHours now).timeToGoal = 0 ∧
    (TimeCalculationService.getCurrentFastingStatus none goalHours now).progressPercentage
        = 0 ∧
    (TimeCalculationService.getCurrentFastingStatus (some e) goalHours now).currentFastDuration
        = now - e.timestamp ∧
    (TimeCalculationService.getCurrentFastingStatus (some e) goalHours now).goalReached
        = decide (goalHours * HOUR_MS ≤ now - e.timestamp) ∧
    (TimeCalculationService.getCurrentFastingStatus (some e) goalHours now).timeToGoal
        = max 0 (goalHours * HOUR_MS - (now - e.timestamp)) ∧
    (TimeCalculationService.getCurrentFastingStatus (some e) goalHours now).progressPercentage
        = round (min (100 : ℚ)
            (((now - e.timestamp : Int) : ℚ) / ((goalHours * HOUR_MS : Int) : ℚ) * 100)) :=
  ⟨rfl, rfl, rfl, rfl, rfl, rfl, rfl, rfl⟩

/-- **C7.** For every nonnegative duration `x`,
`parseDuration (formatDuration x)` is within 60000 ms of `x` (format
truncates to whole minutes; parse reads the tokens back). -/
theorem claim7_parse_format_roundtrip (x : Int) (hx : 0 ≤ x) :
    0 ≤ x - TimeCalculationService.parseDuration (TimeCalculationService.formatDuration x) ∧
    x - TimeCalculationService.parseDuration (TimeCalculationService.formatDuration x)
        < 60000 ∧
    |x - TimeCalculationService.parseDuration (TimeCalculationService.formatDuration x)|
        ≤ 60000 := by
  rw [parse_format x hx]
  have hdm := Nat.div_add_mod x.toNat 60000
  have hmod : x.toNat % 60000 < 60000 := Nat.mod_lt _ (by norm_num)
  have htn : ((x.toNat : Int)) = x := Int.toNat_of_nonneg hx
  refine ⟨by omega, by omega, ?_⟩
  rw [abs_of_nonneg (by omega)]
  omega

/-- **C7 witness.** At `x = 7500001` (2h 5m plus 1 ms). -/
theorem claim7_witness :
    0 ≤ (7500001 : Int) -
        TimeCalculationService.parseDuration (TimeCalculationService.formatDuration 7500001) ∧
    (7500001 : Int) -
        TimeCalculationService.parseDuration (TimeCalculationService.formatDuration 7500001)
        < 60000 ∧
    |(7500001 : Int) -
        TimeCalculationService.parseDuration (TimeCalculationService.formatDuration 7500001)|
        ≤ 60000 :=
  claim7_parse_format_roundtrip 7500001 (by norm_num)

/-- **C10.** With a supplied event, `isCurrentlyFasting` holds exactly when
`now` is strictly past the event's timestamp; a present-or-future-dated
event yields a not-fasting status whose `currentFastDuration` is the zero
or negative difference, formatted `"0m"`. -/
theorem claim10_future_event_not_fasting (e : MealEntry) (goalHours now : Int) :
    (TimeCalculationService.getCurrentFastingStatus (some e) goalHours now).isCurrentlyFasting
        = decide (e.timestamp < now) ∧
    (now ≤ e.timestamp →
      (TimeCalculationService.getCurrentFastingStatus (some e) goalHours now).isCurrentlyFasting
          = false ∧
      (TimeCalculationService.getCurrentFastingStatus (some e) goalHours now).currentFastDuration
          = now - e.timestamp ∧
      (TimeCalculationService.getCurrentFastingStatus (some e) goalHours now).currentFastFormatted
          = "0m") := by
  constructor
  · show decide (0 < now - e.timestamp) = decide (e.timestamp < now)
    exact decide_eq_decide.mpr Int.sub_pos
  · intro h
    refine ⟨decide_eq_false_iff_not.mpr (by omega), rfl, ?_⟩
    show TimeCalculationService.formatDuration (now - e.timestamp) = "0m"
    rcases lt_or_eq_of_le (by omega : now - e.timestamp ≤ 0) with hlt | heq
    · simp [TimeCalculationService.formatDuration, hlt]
    · rw [heq]
      decide

/-- **C10 witness.** A future-dated event (timestamp 100, now 50). -/
theorem claim10_witness :
    (TimeCalculationService.getCurrentFastingStatus
        (some { id := "fut", category := .fruit, timestamp := 100 }) 16 50).isCurrentlyFasting
        = false ∧
    (TimeCalculationService.getCurrentFastingStatus
        (some { id := "fut", category := .fruit, timestamp := 100 }) 16 50).currentFastDuration
        = 50 - (100 : Int) ∧
    (TimeCalculationService.getCurrentFastingStatus
        (some { id := "fut", category := .fruit, timestamp := 100 }) 16 50).currentFastFormatted
        = "0m" := by
  have h := (claim10_future_event_not_fasting
    { id := "fut", category := .fruit, timestamp := 100 } 16 50).2 (by norm_num)
  simpa using h

/-! ### C1: the local-day boundary -/

/-- An event at local 23:59:59.999 of day 0 under a UTC−1 device offset. -/
def c1LateEvent : MealEntry := { id := "late", category := .heavy_meal, timestamp := 89999999 }

/-- An event at local 00:00:00.000 of day 1 under a UTC−1 device offset. -/
def c1EarlyEvent : MealEntry := { id := "early", category := .fruit, timestamp := 90000000 }

/-- An honest store holding exactly the two boundary events. -/
def c1Backend : Database.Backend := Database.honestBackend [c1LateEvent, c1EarlyEvent]

/-- **C1 (failing input).** Under the device offset UTC−1
(`off = -3600000` ms), the two events sit at local 23:59:59.999 of day 0
and local 00:00:00.000 of day 1, yet `getDailySummary 0` returns *no*
events and `getDailySummary 1` returns the day-0 late event:
`new Date("YYYY-MM-DD")` parses the id as UTC midnight, so
`setHours(0,0,0,0)` lands on the *previous* local day for negative
offsets and each summary shows the preceding local day's events. -/
theorem claim1_day_boundary_utc_bug :
    c1LateEvent.timestamp + (-3600000) = DAY_MS - 1 ∧
    c1EarlyEvent.timestamp + (-3600000) = DAY_MS ∧
    (Database.getDailySummary (-3600000) c1Backend 0).toOption.map
        Database.DailySummary.entries = some [] ∧
    (Database.getDailySummary (-3600000) c1Backend 1).toOption.map
        Database.DailySummary.entries = some [c1LateEvent] ∧
    (Database.getDailySummary (-3600000) c1Backend 2).toOption.map
        Database.DailySummary.entries = some [c1EarlyEvent] := by
  refine ⟨by decide, by decide, by decide, by decide, by decide⟩

/-! ### C2: what the aggregator's fasting window really uses -/

/-- A water-only prior day: day 0 holds one water event at local 22:00. -/
def c2Water : MealEntry := { id := "w", category := .water, timestamp := 79200000 }

/-- Day 1 holds one fruit event at local 08:00. -/
def c2Fruit : MealEntry := { id := "f", category := .fruit, timestamp := 115200000 }

/-- An honest store holding the two events, device offset UTC+0. -/
def c2Backend : Database.Backend := Database.honestBackend [c2Water, c2Fruit]

/-- **C2 (counterexample).** The prior day has *no* qualifying
(fast-breaking) event — only water — yet `getDailySummary` of day 1
produces a fasting window, anchored on the water event: the aggregator
pairs the raw last row of the prior day with the raw first row of the day,
with no category filter and no delegation to the §4.3 calculator. -/
theorem claim2_counterexample :
    doesCategoryBreakFasting c2Water.category = false ∧
    (Database.getDailySummary 0 c2Backend 0).toOption.map
        Database.DailySummary.entries = some [c2Water] ∧
    (Database.getDailySummary 0 c2Backend 1).toOption.bind
        Database.DailySummary.fastingWindow = some
          { startTime := 79200000, endTime := 115200000, durationMs := 36000000,
            durationFormatted := "10h", isIntermittentFasting := false } := by
  refine ⟨by decide, by decide, by decide⟩

/-- **C2 (amended).** When the day's query yields a nonempty row list and
the prior-day query (issued for `getDateStringWithOffset(d, -1)`)
succeeds, `getDailySummary`'s `fastingWindow` pairs the prior day's last
row with the day's first row — any category, water included, with no
`0 < durationMs ≤ 48h` guard — and is absent exactly when the prior-day
query returns no rows at all. -/
theorem claim2_amended (off d : Int) (b : Database.Backend) (es ys : List MealEntry)
    (hes : Database.getMealEntriesByDate off b d = .ok es) (hne : es ≠ [])
    (hys : Database.getMealEntriesByDate off b
      (Database.getDateStringWithOffset off d (-1)) = .ok ys) :
    Database.getDailySummary off b d = .ok
      { date := d, entries := es, totalEntries := es.length,
        firstIntake := es.head?.map MealEntry.timestamp,
        lastIntake := es.getLast?.map MealEntry.timestamp,
        gaps := Database.calculateTimeGaps es,
        fastingWindow := match ys.getLast?, es.head? with
          | some lastY, some firstT => some
              { startTime := lastY.timestamp, endTime := firstT.timestamp,
                durationMs := firstT.timestamp - lastY.timestamp,
                durationFormatted := Database.formatDuration
                  (firstT.timestamp - lastY.timestamp),
                isIntermittentFasting :=
                  decide (16 * HOUR_MS ≤ firstT.timestamp - lastY.timestamp) }
          | _, _ => none } := by
  have hfw : Database.calculateFastingWindow off b d es =
      match ys.getLast?, es.head? with
      | some lastY, some firstT => some
          { startTime := lastY.timestamp, endTime := firstT.timestamp,
            durationMs := firstT.timestamp - lastY.timestamp,
            durationFormatted := Database.formatDuration
              (firstT.timestamp - lastY.timestamp),
            isIntermittentFasting :=
              decide (16 * HOUR_MS ≤ firstT.timestamp - lastY.timestamp) }
      | _, _ => none := by
    simp only [Database.calculateFastingWindow]
    rw [hys]
  simp only [Database.getDailySummary]
  rw [hes]
  simp only [List.isEmpty_iff]
  rw [if_neg hne, hfw]

/-- **C2 (amended) witness.** The water/fruit store instantiates the
amended statement. -/
theorem claim2_witness :
    Database.getDailySummary 0 c2Backend 1 = .ok
      { date := 1, entries := [c2Fruit], totalEntries := [c2Fruit].length,
        firstIntake := [c2Fruit].head?.map MealEntry.timestamp,
        lastIntake := [c2Fruit].getLast?.map MealEntry.timestamp,
        gaps := Database.calculateTimeGaps [c2Fruit],
        fastingWindow := match [c2Water].getLast?, [c2Fruit].head? with
          | some lastY, some firstT => some
              { startTime := lastY.timestamp, endTime := firstT.timestamp,
                durationMs := firstT.timestamp - lastY.timestamp,
                durationFormatted := Database.formatDuration
                  (firstT.timestamp - lastY.timestamp),
                isIntermittentFasting :=
                  decide (16 * HOUR_MS ≤ firstT.timestamp - lastY.timestamp) }
          | _, _ => none } :=
  claim2_amended 0 1 c2Backend [c2Fruit] [c2Water] (by decide) (by decide) (by decide)

/-! ### C6: error propagation through the aggregator -/

/-- One fruit event inside day 0's queried range (UTC+0). -/
def c6Entry : MealEntry := { id := "t", category := .fruit, timestamp := 36000000 }

/-- A store that answers day 0's range but fails every other query —
in particular the prior-day query issued for the fasting window. -/
def c6Backend : Database.Backend :=
  ⟨fun s _ => if s = 0 then .ok [c6Entry] else .error "db failure"⟩

/-- A store whose every query fails. -/
def c6FailBackend : Database.Backend := ⟨fun _ _ => .error "boom"⟩

/-- **C6 (counterexample).** The prior-day query made for the fasting
window fails, yet `getDailySummary` succeeds with `fastingWindow = none`:
the inner `try/catch` swallows the store error instead of propagating it
as a `StorageError`. -/
theorem claim6_counterexample :
    c6Backend.runQuery
        (Database.dayQueryStart 0 (Database.getDateStringWithOffset 0 0 (-1)))
        (Database.dayQueryEnd 0 (Database.getDateStringWithOffset 0 0 (-1)))
        = .error "db failure" ∧
    Database.getDailySummary 0 c6Backend 0 = .ok
      { date := 0, entries := [c6Entry], totalEntries := 1,
        firstIntake := some 36000000, lastIntake := some 36000000,
        gaps := [], fastingWindow := none } := by
  refine ⟨by decide, by decide⟩

/-- **C6 (amended).** A failure of the *named day's* query propagates as
the `QUERY_FAILED` storage error; a failure of the *prior-day* query made
for the fasting window is caught and merely yields `fastingWindow = none`,
exactly like a prior day with no rows. -/
theorem claim6_amended (off d : Int) (b : Database.Backend) :
    (∀ m, b.runQuery (Database.dayQueryStart off d) (Database.dayQueryEnd off d)
        = .error m →
      Database.getDailySummary off b d = .error Database.queryFailedError) ∧
    (∀ es, Database.getMealEntriesByDate off b d = .ok es →
      (Database.getMealEntriesByDate off b
          (Database.getDateStringWithOffset off d (-1)) = .ok [] ∨
        ∃ m, b.runQuery
          (Database.dayQueryStart off (Database.getDateStringWithOffset off d (-1)))
          (Database.dayQueryEnd off (Database.getDateStringWithOffset off d (-1)))
          = .error m) →
      ∃ s, Database.getDailySummary off b d = .ok s ∧ s.fastingWindow = none) := by
  constructor
  · intro m hm
    simp only [Database.getDailySummary, Database.getMealEntriesByDate]
    rw [hm]
  · intro es hes hprior
    have hfw : Database.calculateFastingWindow off b d es = none := by
      simp only [Database.calculateFastingWindow]
      rcases hprior with hempty | ⟨m, hm⟩
      · rw [hempty]
        rcases es.head? with _ | _ <;> rfl
      · simp only [Database.getMealEntriesByDate]
        rw [hm]
    by_cases hemp : es.isEmpty = true
    · refine ⟨{ date := d, entries := es, totalEntries := es.length }, ?_, rfl⟩
      simp [Database.getDailySummary, hes, hemp]
    · refine ⟨{ date := d, entries := es, totalEntries := es.length,
                firstIntake := es.head?.map MealEntry.timestamp,
                lastIntake := es.getLast?.map MealEntry.timestamp,
                gaps := Database.calculateTimeGaps es,
                fastingWindow := Database.calculateFastingWindow off b d es }, ?_, hfw⟩
      simp [Database.getDailySummary, hes, hemp]

/-- **C6 (amended) witness.** The all-failing store makes the day query
propagate; the half-failing store shows the swallowed prior-day failure. -/
theorem claim6_witness :
    Database.getDailySummary 0 c6FailBackend 0 = .error Database.queryFailedError ∧
    ∃ s, Database.getDailySummary 0 c6Backend 0 = .ok s ∧ s.fastingWindow = none :=
  ⟨(claim6_amended 0 0 c6FailBackend).1 "boom" (by decide),
   (claim6_amended 0 0 c6Backend).2 [c6Entry] (by decide)
     (.inr ⟨"db failure", by decide⟩)⟩

/-! ### C8: updating a nonexistent id -/

/-- The single stored entry for the update scenarios. -/
def c8Entry : MealEntry := { id := "a", category := .water, timestamp := 100 }

/-- **C8 (counterexample).** With a patch carrying none of the three
fields, `updateMealEntry` of an absent id *succeeds* (the method returns
early before ever touching the store or checking existence) instead of
failing with `NotFound`. -/
theorem claim8_counterexample :
    ([c8Entry].all (fun e => e.id != "missing")) = true ∧
    Database.updateMealEntry [c8Entry] "missing" {} 999 = .ok [c8Entry] := by
  refine ⟨by decide, by decide⟩

/-- **C8 (amended).** For an absent id: a patch with at least one of
category/timestamp/notes fails — but as a generic `UPDATE_FAILED` error
that merely wraps the `ENTRY_NOT_FOUND` error, because the catch clause's
`instanceof Error` test never matches the thrown plain `AppError` object —
while a patch with none of the three fields returns success with the store
unchanged. -/
theorem claim8_amended (store : List MealEntry) (id : String)
    (p : Database.MealPatch) (now : Int) (habsent : ∀ e ∈ store, e.id ≠ id) :
    (p.category.isSome = true ∨ p.timestamp.isSome = true ∨ p.notes.isSome = true →
      Database.updateMealEntry store id p now = .error
        { code := "UPDATE_FAILED", message := "Failed to update meal entry",
          detailCode := some "ENTRY_NOT_FOUND" }) ∧
    (p.category = none → p.timestamp = none → p.notes = none →
      Database.updateMealEntry store id p now = .ok store) := by
  have hany : store.any (fun e => e.id == id) = false := by
    rw [List.any_eq_false]
    intro e he
    simpa using habsent e he
  constructor
  · intro hsome
    have hfields :
        (p.category.isSome || p.timestamp.isSome || p.notes.isSome) = true := by
      rcases hsome with h | h | h <;> simp [h]
    simp only [Database.updateMealEntry, Database.updateMealEntryBody, hfields, hany,
      Bool.not_true, if_false]
    rfl
  · intro h1 h2 h3
    simp only [Database.updateMealEntry, Database.updateMealEntryBody, h1, h2, h3]
    rfl

/-- **C8 (amended) witness.** Both branches at the one-entry store. -/
theorem claim8_witness :
    Database.updateMealEntry [c8Entry] "missing" { notes := some "x" } 999 = .error
      { code := "UPDATE_FAILED", message := "Failed to update meal entry",
        detailCode := some "ENTRY_NOT_FOUND" } ∧
    Database.updateMealEntry [c8Entry] "missing" {} 999 = .ok [c8Entry] :=
  ⟨(claim8_amended [c8Entry] "missing" { notes := some "x" } 999 (by decide)).1
      (Or.inr (Or.inr rfl)),
   (claim8_amended [c8Entry] "missing" {} 999 (by decide)).2 rfl rfl rfl⟩

/-! ### C9: migration idempotence -/

/-- **C9.** Running the schema migration twice equals running it once (the
second run is a no-op on the already-migrated store, detected by
introspecting the columns for `date`); the rows' six base columns are
preserved, and a migrated store never shows a `date` column. -/
theorem claim9_migration_idempotent (db : Database.MigDb) :
    Database.runMigrations (Database.runMigrations db) = Database.runMigrations db ∧
    Database.coreRows (Database.runMigrations db) = Database.coreRows db ∧
    Database.hasDateColumn (Database.runMigrations db) = false := by
  rcases db with ⟨t⟩
  cases t with
  | none => exact ⟨rfl, rfl, rfl⟩
  | some ct =>
    rcases ct with ⟨cols, rows⟩
    by_cases hd : cols.contains "date" = true
    · have h1 : Database.runMigrations ⟨some (cols, rows)⟩ =
          ⟨some (Database.baseColumns,
            rows.map (fun r => { r with date := none }))⟩ := by
        simp only [Database.runMigrations, hd, if_true]
      rw [h1]
      refine ⟨?_, ?_, ?_⟩
      · simp only [Database.runMigrations]
        rw [if_neg (by decide)]
      · simp [Database.coreRows, List.map_map, Function.comp]
      · simp only [Database.hasDateColumn]
        decide
    · have hd' : cols.contains "date" = false := by
        simpa using hd
      have h1 : Database.runMigrations ⟨some (cols, rows)⟩ = ⟨some (cols, rows)⟩ := by
        simp only [Database.runMigrations]
        rw [if_neg (by rw [hd']; decide)]
      rw [h1]
      refine ⟨h1, rfl, ?_⟩
      simp only [Database.hasDateColumn]
      exact hd'


end GutRest
